import Mathlib

/-!
# notify-recent-insta-hashtag: batching and fail-fast delivery

A shallow embedding of `main.go`.  The program is a straight line of HTTP calls, so the
embedding is a pure function from a `World` (everything the process reads from outside:
the outcome of loading `.env`, the environment, and the outcome of every HTTP call) to a
`Run` (the ordered trace of outbound calls together with the way the process ended).

Conventions

* Go strings are modelled by Lean `String`s, slices by `List`s.
* Go `int` offsets are modelled by `Nat`: the loop offset never exceeds the slice length
  plus 5, so no machine overflow can occur.
* `log.Fatal`/`log.Fatalf` end the process at once; each call site is one constructor of
  `Fatal`, and a function that can hit one returns the trace it produced so far.
* The response of the `n`-th call of a given kind is `World.recentMedia n` /
  `World.broadcast n`; a trace entry records the request together with the outcome the
  world gave to it.
* `json.Marshal` of a `LINEBroadcastRequest` and `http.NewRequest` with the constant
  method and URL cannot fail; they are modelled as functions into `Except` that always
  succeed, and the source's error branches are kept.
-/

namespace NotifyRecentInstaHashtag

/-! ## Constants (main.go 16-23) -/

def InstagramAPIHost : String := "https://graph.facebook.com"
def LINEAPIHost : String := "https://api.line.me"
def InstagramHashtagIDURL : String := "/v20.0/ig_hashtag_search"
def InstagramRecentMediaURL : String := "/v20.0/:tag_id/recent_media"
def LINEBroadcastURL : String := "/v2/bot/message/broadcast"
def MaxLINEMessageCount : Nat := 5

/-- The status code `http.StatusOK`. -/
def StatusOK : Nat := 200

/-! ## Data model (main.go 25-44) -/

/-- One element of `HashtagSearchResponse.Data`. -/
structure HashtagData where
  ID : String
  deriving DecidableEq, Repr

structure HashtagSearchResponse where
  Data : List HashtagData
  deriving DecidableEq, Repr

/-- One element of `RecentMediaResponse.Data`. -/
structure MediaData where
  Permalink : String
  deriving DecidableEq, Repr

structure RecentMediaResponse where
  Data : List MediaData
  deriving DecidableEq, Repr

/-- The Go field `Type` is spelled `Type_` (`Type` is reserved in Lean). -/
structure LINEBroadcastMessage where
  Type_ : String
  Text : String
  deriving DecidableEq, Repr

structure LINEBroadcastRequest where
  Messages : List LINEBroadcastMessage
  deriving DecidableEq, Repr

/-! ## The outside world -/

/-- What `http.Get` + `io.ReadAll` + `json.Unmarshal` give for one GET: the request fails,
the body cannot be read, the body does not decode, or it decodes to a value.  The status
code of a GET response is never inspected by the program. -/
inductive GetOutcome (α : Type) where
  | requestFailed
  | readFailed
  | parseFailed
  | decoded (v : α)
  deriving DecidableEq, Repr

/-- What `client.Do` gives for one POST: a transport error or a response status code. -/
inductive PostOutcome where
  | doFailed
  | status (code : Nat)
  deriving DecidableEq, Repr

/-- Everything the process reads from outside.  `dotenvLoadFails` says whether
`godotenv.Load` (line 47) returns an error.  `getenv` is `os.Getenv` as the program sees
it at lines 52-67, that is the process environment after `godotenv.Load` has run (a load
that fails sets nothing); a variable that is not set reads as the empty string.
`hashtagSearch` is the outcome of the one hashtag-search call, `recentMedia n` the outcome
of the `n`-th recent-media call and `broadcast n` the outcome of the `n`-th delivery call
of the run, counting from 0. -/
structure World where
  dotenvLoadFails : Bool
  getenv : String → String
  hashtagSearch : GetOutcome HashtagSearchResponse
  recentMedia : Nat → GetOutcome RecentMediaResponse
  broadcast : Nat → PostOutcome

/-- A GET request: the URL in front of `?` and the `url.Values` entries in the order in
which they were added (`Encode` is not modelled). -/
structure GetRequest where
  url : String
  params : List (String × String)
  deriving DecidableEq, Repr

/-- One delivery call: the POST request built at lines 166-178 and the outcome of
`client.Do`.  `body` is the value handed to `json.Marshal`. -/
structure Delivery where
  method : String
  url : String
  headers : List (String × String)
  body : LINEBroadcastRequest
  res : PostOutcome
  deriving DecidableEq, Repr

/-- One outbound network call of a run, with its outcome. -/
inductive Event where
  | hashtagSearch (req : GetRequest) (res : GetOutcome HashtagSearchResponse)
  | recentMedia (req : GetRequest) (res : GetOutcome RecentMediaResponse)
  | broadcast (d : Delivery)
  deriving DecidableEq, Repr

/-- The call sites of `log.Fatal` and `log.Fatalf`, in source order. -/
inductive Fatal where
  | dotenvLoad
  | noInstaUserID
  | noInstaAccessToken
  | noInstaTagNameList
  | noLineAccessToken
  | hashtagRequest
  | hashtagRead
  | hashtagParse
  | hashtagNotFound
  | mediaRequest
  | mediaRead
  | mediaParse
  | broadcastEncode
  | broadcastCreate
  | broadcastDo
  | broadcastStatus (code : Nat)
  deriving DecidableEq, Repr

/-- How a function (or the process) ended: it returned, it hit a `log.Fatal`, or it
panicked on an index out of range. -/
inductive Exit where
  | returned
  | fatal (f : Fatal)
  | panicked
  deriving DecidableEq, Repr

/-- The delivery calls issued by one `broadcastMessage` invocation and how it ended. -/
structure BroadcastRun where
  calls : List Delivery
  exit : Exit
  deriving DecidableEq, Repr

/-- The outbound calls of (a part of) the process, in order, and how it ended. -/
structure Run where
  calls : List Event
  exit : Exit
  deriving DecidableEq, Repr

/-! ## Library functions used by the program -/

/-- Splitting a character list at every occurrence of `sep`. -/
def splitChars (sep : Char) : List Char → List (List Char)
  | [] => [[]]
  | c :: cs =>
    if c = sep then [] :: splitChars sep cs
    else
      match splitChars sep cs with
      | [] => [[c]]
      | h :: t => (c :: h) :: t

/-- Go `strings.Split(s, sep)` for a one-character separator. -/
def stringsSplit (s : String) (sep : Char) : List String :=
  (splitChars sep s.data).map String.mk

/-- Replacing the first occurrence of `old` in a character list. -/
def replaceFirstChars (old new : List Char) : List Char → List Char
  | [] => if old = [] then new else []
  | c :: cs =>
    if old.isPrefixOf (c :: cs) then new ++ (c :: cs).drop old.length
    else c :: replaceFirstChars old new cs

/-- Go `strings.Replace(s, old, new, 1)`. -/
def stringsReplace1 (s old new : String) : String :=
  String.mk (replaceFirstChars old.data new.data s.data)

/-- Go `json.Marshal` on a `LINEBroadcastRequest`: a struct of strings always encodes.
The encoded body is represented by the value itself. -/
def jsonMarshal (r : LINEBroadcastRequest) : Except Unit LINEBroadcastRequest :=
  .ok r

/-- Go `http.NewRequest(method, url, body)`; with the constant method and URL of line 172
it always succeeds.  The result is the request without headers and outcome. -/
def newRequest (method url : String) (body : LINEBroadcastRequest) :
    Except Unit (String × String × LINEBroadcastRequest) :=
  .ok (method, url, body)

/-- Go slice expression `s[i:j]`. -/
def slice (s : List String) (i j : Nat) : List String :=
  (s.take j).drop i

/-! ## broadcastMessage (main.go 149-190) -/

/-- Lines 158-164: the inner loop appending one message object per batch element. -/
def buildMessageList (messageBatch : List String) : List LINEBroadcastMessage :=
  messageBatch.foldl (fun acc message => acc ++ [⟨"text", message⟩]) []

/-- The loop of lines 151-189 from offset `i`; `sent` counts the delivery calls issued
by the earlier iterations, so that this iteration's call is answered by `post sent`. -/
def broadcastLoop (post : Nat → PostOutcome) (messages : List String)
    (accessToken : String) (i sent : Nat) : BroadcastRun :=
  if _h : i < messages.length then
    let end_ := if i + MaxLINEMessageCount > messages.length then messages.length
      else i + MaxLINEMessageCount
    let messageBatch := slice messages i end_
    let LINEBroadcastMessageList := buildMessageList messageBatch
    let broadcastRequest : LINEBroadcastRequest := ⟨LINEBroadcastMessageList⟩
    match jsonMarshal broadcastRequest with
    | .error _ => ⟨[], .fatal .broadcastEncode⟩
    | .ok broadcastRequestJSON =>
      match newRequest "POST" (LINEAPIHost ++ LINEBroadcastURL) broadcastRequestJSON with
      | .error _ => ⟨[], .fatal .broadcastCreate⟩
      | .ok (method, url, body) =>
        let headers := [("Content-Type", "application/json"),
          ("Authorization", "Bearer " ++ accessToken)]
        let res := post sent
        let d : Delivery := ⟨method, url, headers, body, res⟩
        match res with
        | .doFailed => ⟨[d], .fatal .broadcastDo⟩
        | .status code =>
          if code ≠ StatusOK then ⟨[d], .fatal (.broadcastStatus code)⟩
          else
            let r := broadcastLoop post messages accessToken (i + MaxLINEMessageCount)
              (sent + 1)
            ⟨d :: r.calls, r.exit⟩
  else ⟨[], .returned⟩
termination_by messages.length - i
decreasing_by
  simp only [MaxLINEMessageCount]
  omega

/-- The function `broadcastMessage`; `post k` is the outcome of its `k`-th delivery call
(counting from 0). -/
def broadcastMessage (post : Nat → PostOutcome) (messages : List String)
    (accessToken : String) : BroadcastRun :=
  broadcastLoop post messages accessToken 0 0

/-! ## getHashtagID (main.go 88-117) and getRecentMediaUrlList (main.go 119-147) -/

def getHashtagID (w : World) (tagName userID accessToken : String) :
    Event × Except Fatal HashtagSearchResponse :=
  let tagBaseURL := InstagramAPIHost ++ InstagramHashtagIDURL
  let params := [("user_id", userID), ("q", tagName), ("access_token", accessToken)]
  let res := w.hashtagSearch
  (Event.hashtagSearch ⟨tagBaseURL, params⟩ res,
    match res with
    | .requestFailed => .error .hashtagRequest
    | .readFailed => .error .hashtagRead
    | .parseFailed => .error .hashtagParse
    | .decoded hashtagSearchResponse =>
      if hashtagSearchResponse.Data.length = 0 then .error .hashtagNotFound
      else .ok hashtagSearchResponse)

/-- The parameter `n` is the number of recent-media calls issued before this one. -/
def getRecentMediaUrlList (w : World) (n : Nat) (tagID userID accessToken : String) :
    Event × Except Fatal RecentMediaResponse :=
  let recentMediaBaseURL := InstagramAPIHost ++ InstagramRecentMediaURL
  let recentMediaBaseURL := stringsReplace1 recentMediaBaseURL ":tag_id" tagID
  let params := [("user_id", userID), ("fields", "permalink"),
    ("access_token", accessToken), ("limit", "50")]
  let res := w.recentMedia n
  (Event.recentMedia ⟨recentMediaBaseURL, params⟩ res,
    match res with
    | .requestFailed => .error .mediaRequest
    | .readFailed => .error .mediaRead
    | .parseFailed => .error .mediaParse
    | .decoded recentMediaResponse => .ok recentMediaResponse)

/-! ## main (main.go 46-86) -/

/-- The loop of lines 78-85 over the remaining tag identifiers; `m` recent-media calls and
`b` delivery calls have been issued so far. -/
def tagLoop (w : World) (instaUserID instaAccessToken lineAccessToken : String) :
    List HashtagData → Nat → Nat → Run
  | [], _, _ => ⟨[], .returned⟩
  | tag :: rest, m, b =>
    match getRecentMediaUrlList w m tag.ID instaUserID instaAccessToken with
    | (ev, .error f) => ⟨[ev], .fatal f⟩
    | (ev, .ok recentMediaResponse) =>
      let messages := recentMediaResponse.Data.map (fun permalink => permalink.Permalink)
      let r := broadcastMessage (fun k => w.broadcast (b + k)) messages lineAccessToken
      match r.exit with
      | .returned =>
        let r2 := tagLoop w instaUserID instaAccessToken lineAccessToken rest (m + 1)
          (b + r.calls.length)
        ⟨ev :: (r.calls.map Event.broadcast ++ r2.calls), r2.exit⟩
      | e => ⟨ev :: r.calls.map Event.broadcast, e⟩

def main (w : World) : Run :=
  if w.dotenvLoadFails then ⟨[], .fatal .dotenvLoad⟩
  else
    let instaUserID := w.getenv "INSTAGRAM_USER_ID"
    if instaUserID = "" then ⟨[], .fatal .noInstaUserID⟩
    else
      let instaAccessToken := w.getenv "INSTAGRAM_ACCESS_TOKEN"
      if instaAccessToken = "" then ⟨[], .fatal .noInstaAccessToken⟩
      else
        let instaTagNameList := w.getenv "INSTAGRAM_TAG_NAME_LIST"
        if instaTagNameList = "" then ⟨[], .fatal .noInstaTagNameList⟩
        else
          let lineAccessToken := w.getenv "LINE_CHANNEL_ACCESS_TOKEN"
          if lineAccessToken = "" then ⟨[], .fatal .noLineAccessToken⟩
          else
            let tagNameListSlice := stringsSplit instaTagNameList ','
            match tagNameListSlice[0]? with
            | none => ⟨[], .panicked⟩
            | some tagName =>
              match getHashtagID w tagName instaUserID instaAccessToken with
              | (ev, .error f) => ⟨[ev], .fatal f⟩
              | (ev, .ok hashtagID) =>
                let tagIDList := hashtagID.Data
                let r := tagLoop w instaUserID instaAccessToken lineAccessToken
                  tagIDList 0 0
                ⟨ev :: r.calls, r.exit⟩

/-! ## Derived descriptions of one loop iteration -/

/-- The batch `messages[i:end]` of the iteration at offset `i` (lines 152-157). -/
def batchAt (messages : List String) (i : Nat) : List String :=
  slice messages i
    (if i + MaxLINEMessageCount > messages.length then messages.length
      else i + MaxLINEMessageCount)

/-- The delivery call of the iteration at offset `i` when the world answers `res`. -/
def deliveryAt (messages : List String) (accessToken : String) (i : Nat)
    (res : PostOutcome) : Delivery :=
  ⟨"POST", LINEAPIHost ++ LINEBroadcastURL,
    [("Content-Type", "application/json"), ("Authorization", "Bearer " ++ accessToken)],
    ⟨buildMessageList (batchAt messages i)⟩, res⟩

/-- The fatal error of lines 182-188 for an outcome other than status 200. -/
def fatalOf : PostOutcome → Fatal
  | .doFailed => .broadcastDo
  | .status code => .broadcastStatus code

/-- The texts carried by a delivery call, in order. -/
def Delivery.texts (d : Delivery) : List String :=
  d.body.Messages.map (fun m => m.Text)

/-! ## Vocabulary for statements about whole runs -/

/-- The four environment variables read by `main` (lines 52-70). -/
def requiredKeys : List String :=
  ["INSTAGRAM_USER_ID", "INSTAGRAM_ACCESS_TOKEN", "INSTAGRAM_TAG_NAME_LIST",
    "LINE_CHANNEL_ACCESS_TOKEN"]

def Event.isHashtagSearch : Event → Bool
  | .hashtagSearch _ _ => true
  | _ => false

def Event.isRecentMedia : Event → Bool
  | .recentMedia _ _ => true
  | _ => false

def Event.isBroadcast : Event → Bool
  | .broadcast _ => true
  | _ => false

/-- The world that differs from `w` only in the value of one environment variable. -/
def World.setenv (w : World) (key value : String) : World :=
  ⟨w.dotenvLoadFails, fun k => if k = key then value else w.getenv k, w.hashtagSearch,
    w.recentMedia, w.broadcast⟩

/-- The text of `s` in front of its first comma (all of `s` when it has none). -/
def textBeforeFirstComma (s : String) : String :=
  String.mk (s.data.takeWhile (fun c => c ≠ ','))

/-- The recent-media call `getRecentMediaUrlList` issues as call number `n`. -/
def mediaEvent (w : World) (n : Nat) (tagID userID accessToken : String) : Event :=
  (getRecentMediaUrlList w n tagID userID accessToken).1

/-- The permalinks of a decoded recent-media response (lines 80-83). -/
def permalinks (r : RecentMediaResponse) : List String :=
  r.Data.map (fun permalink => permalink.Permalink)

/-- The hashtag-search call `getHashtagID` issues for a tag name. -/
def searchEvent (w : World) (tagName userID accessToken : String) : Event :=
  Event.hashtagSearch
    ⟨InstagramAPIHost ++ InstagramHashtagIDURL,
      [("user_id", userID), ("q", tagName), ("access_token", accessToken)]⟩
    w.hashtagSearch

/-! ## Concrete inputs -/

def sixMessages : List String := ["p0", "p1", "p2", "p3", "p4", "p5"]

def twelveMessages : List String :=
  ["p0", "p1", "p2", "p3", "p4", "p5", "p6", "p7", "p8", "p9", "p10", "p11"]

/-- Every delivery call is answered with status 200. -/
def alwaysOK : Nat → PostOutcome := fun _ => .status StatusOK

/-- The second delivery call is answered with status 500, the others with 200. -/
def failSecond : Nat → PostOutcome :=
  fun k => if k = 1 then .status 500 else .status StatusOK

/-- The second delivery of `sixMessages` under `alwaysOK`. -/
def sixSecondDelivery : Delivery :=
  ⟨"POST", "https://api.line.me/v2/bot/message/broadcast",
    [("Content-Type", "application/json"), ("Authorization", "Bearer tok")],
    ⟨[⟨"text", "p5"⟩]⟩, .status 200⟩

/-- The first delivery of `twelveMessages`, answered with status 200. -/
def twelveFirstDelivery : Delivery :=
  ⟨"POST", "https://api.line.me/v2/bot/message/broadcast",
    [("Content-Type", "application/json"), ("Authorization", "Bearer tok")],
    ⟨[⟨"text", "p0"⟩, ⟨"text", "p1"⟩, ⟨"text", "p2"⟩, ⟨"text", "p3"⟩, ⟨"text", "p4"⟩]⟩,
    .status 200⟩

/-- An environment with all four variables set; the tag list has two entries. -/
def sampleEnv : String → String :=
  fun k =>
    if k = "INSTAGRAM_USER_ID" then "u1"
    else if k = "INSTAGRAM_ACCESS_TOKEN" then "t1"
    else if k = "INSTAGRAM_TAG_NAME_LIST" then "cat,dog"
    else if k = "LINE_CHANNEL_ACCESS_TOKEN" then "l1"
    else ""

/-- A world in which everything succeeds: two tag identifiers, the first without posts,
the second with two. -/
def sampleWorld : World :=
  ⟨false, sampleEnv, .decoded ⟨[⟨"17"⟩, ⟨"18"⟩]⟩,
    fun n => if n = 0 then .decoded ⟨[]⟩ else .decoded ⟨[⟨"p0"⟩, ⟨"p1"⟩]⟩,
    alwaysOK⟩

/-- The same world, but loading `.env` fails. -/
def noDotenvWorld : World :=
  ⟨true, sampleEnv, .decoded ⟨[⟨"17"⟩, ⟨"18"⟩]⟩,
    fun n => if n = 0 then .decoded ⟨[]⟩ else .decoded ⟨[⟨"p0"⟩, ⟨"p1"⟩]⟩,
    alwaysOK⟩

/-- A world whose hashtag search decodes to an empty identifier list. -/
def emptySearchWorld : World :=
  ⟨false, sampleEnv, .decoded ⟨[]⟩, fun _ => .decoded ⟨[⟨"p0"⟩]⟩, alwaysOK⟩

/-- A world in which `LINE_CHANNEL_ACCESS_TOKEN` is not set. -/
def noLineTokenWorld : World :=
  ⟨false, fun k => if k = "LINE_CHANNEL_ACCESS_TOKEN" then "" else sampleEnv k,
    .decoded ⟨[⟨"17"⟩]⟩, fun _ => .decoded ⟨[⟨"p0"⟩]⟩, alwaysOK⟩

/-! ## Lemmas on the batching loop -/

theorem buildMessageList_eq_map (batch : List String) :
    buildMessageList batch = batch.map (fun m => (⟨"text", m⟩ : LINEBroadcastMessage)) := by
  have key : ∀ (l : List String) (acc : List LINEBroadcastMessage),
      l.foldl (fun acc message => acc ++ [(⟨"text", message⟩ : LINEBroadcastMessage)]) acc
        = acc ++ l.map (fun m => (⟨"text", m⟩ : LINEBroadcastMessage)) := by
    intro l
    induction l with
    | nil => intro acc; simp
    | cons a t ih => intro acc; simp [List.foldl_cons, ih]
  simpa [buildMessageList] using key batch []

theorem batchAt_eq (messages : List String) (i : Nat) :
    batchAt messages i = (messages.drop i).take MaxLINEMessageCount := by
  unfold batchAt slice MaxLINEMessageCount
  split
  · rw [List.take_length, List.take_of_length_le]
    simp only [List.length_drop]; omega
  · rw [List.drop_take]; congr 1; omega

theorem deliveryAt_texts (messages : List String) (tok : String) (i : Nat)
    (res : PostOutcome) :
    (deliveryAt messages tok i res).texts = (messages.drop i).take MaxLINEMessageCount := by
  simp [Delivery.texts, deliveryAt, buildMessageList_eq_map, batchAt_eq, List.map_map,
    Function.comp_def]

theorem broadcastLoop_done (post : Nat → PostOutcome) (messages : List String)
    (tok : String) (i sent : Nat) (h : ¬ i < messages.length) :
    broadcastLoop post messages tok i sent = ⟨[], .returned⟩ := by
  rw [broadcastLoop]; simp [h]

theorem broadcastLoop_ok (post : Nat → PostOutcome) (messages : List String)
    (tok : String) (i sent : Nat) (h : i < messages.length)
    (hp : post sent = .status StatusOK) :
    broadcastLoop post messages tok i sent =
      ⟨deliveryAt messages tok i (.status StatusOK) ::
          (broadcastLoop post messages tok (i + MaxLINEMessageCount) (sent + 1)).calls,
        (broadcastLoop post messages tok (i + MaxLINEMessageCount) (sent + 1)).exit⟩ := by
  rw [broadcastLoop]
  simp [h, hp, jsonMarshal, newRequest, deliveryAt, batchAt]

theorem broadcastLoop_fail (post : Nat → PostOutcome) (messages : List String)
    (tok : String) (i sent : Nat) (h : i < messages.length)
    (hp : post sent ≠ .status StatusOK) :
    (broadcastLoop post messages tok i sent).calls = [deliveryAt messages tok i (post sent)]
      ∧ (broadcastLoop post messages tok i sent).exit = .fatal (fatalOf (post sent)) := by
  rw [broadcastLoop]
  simp only [h, dite_true, jsonMarshal, newRequest, deliveryAt, batchAt]
  cases hres : post sent with
  | doFailed => simp [fatalOf]
  | status code =>
    have hc : code ≠ StatusOK := by
      intro hc; apply hp; rw [hres, hc]
    simp [hc, fatalOf]

/-- Every entry of the trace of the loop is the delivery of the batch at its offset. -/
theorem broadcastLoop_getElem? (post : Nat → PostOutcome) (messages : List String)
    (tok : String) (i sent j : Nat) (d : Delivery)
    (hd : (broadcastLoop post messages tok i sent).calls[j]? = some d) :
    i + MaxLINEMessageCount * j < messages.length
      ∧ d = deliveryAt messages tok (i + MaxLINEMessageCount * j) (post (sent + j)) := by
  by_cases h : i < messages.length
  · by_cases hp : post sent = .status StatusOK
    · rw [broadcastLoop_ok post messages tok i sent h hp] at hd
      cases j with
      | zero =>
        simp only [List.getElem?_cons_zero, Option.some.injEq] at hd
        simp [← hd, hp, h]
      | succ j =>
        simp only [List.getElem?_cons_succ] at hd
        have ih := broadcastLoop_getElem? post messages tok (i + MaxLINEMessageCount)
          (sent + 1) j d hd
        have e1 : i + MaxLINEMessageCount + MaxLINEMessageCount * j
            = i + MaxLINEMessageCount * (j + 1) := by ring
        have e2 : sent + 1 + j = sent + (j + 1) := by ring
        rw [e1, e2] at ih
        exact ih
    · rw [(broadcastLoop_fail post messages tok i sent h hp).1] at hd
      cases j with
      | zero =>
        simp only [List.getElem?_cons_zero, Option.some.injEq] at hd
        simp [← hd, h]
      | succ j => simp at hd
  · rw [broadcastLoop_done post messages tok i sent h] at hd
    simp at hd
termination_by messages.length - i
decreasing_by
  simp only [MaxLINEMessageCount]
  omega

/-- When every delivery call of the trace was answered with status 200, the loop returns,
its batches concatenate to the rest of the list, and their number is the rounded-up
quotient. -/
theorem broadcastLoop_all_ok (post : Nat → PostOutcome) (messages : List String)
    (tok : String) (i sent : Nat)
    (hok : ∀ d ∈ (broadcastLoop post messages tok i sent).calls, d.res = .status StatusOK) :
    (broadcastLoop post messages tok i sent).exit = .returned
      ∧ ((broadcastLoop post messages tok i sent).calls.map Delivery.texts).flatten
          = messages.drop i
      ∧ (broadcastLoop post messages tok i sent).calls.length
          = (messages.length - i + 4) / 5 := by
  by_cases h : i < messages.length
  · by_cases hp : post sent = .status StatusOK
    · rw [broadcastLoop_ok post messages tok i sent h hp] at hok ⊢
      have ih := broadcastLoop_all_ok post messages tok (i + MaxLINEMessageCount) (sent + 1)
        (fun d hd => hok d (List.mem_cons_of_mem _ hd))
      obtain ⟨ih1, ih2, ih3⟩ := ih
      refine ⟨ih1, ?_, ?_⟩
      · simp only [List.map_cons, List.flatten_cons, ih2, deliveryAt_texts]
        rw [← List.drop_drop]
        exact List.take_append_drop _ _
      · rw [List.length_cons, ih3]
        simp only [MaxLINEMessageCount]
        omega
    · exfalso
      have hc := (broadcastLoop_fail post messages tok i sent h hp).1
      have := hok (deliveryAt messages tok i (post sent)) (by rw [hc]; simp)
      exact hp (by simpa [deliveryAt] using this)
  · rw [broadcastLoop_done post messages tok i sent h]
    refine ⟨rfl, ?_, ?_⟩
    · simp only [List.map_nil, List.flatten_nil]
      exact (List.drop_eq_nil_of_le (by omega)).symm
    · simp only [List.length_nil]
      omega
termination_by messages.length - i
decreasing_by
  simp only [MaxLINEMessageCount]
  omega

/-- When the calls `sent, ..., sent + n - 1` are answered with status 200 and the call
`sent + n` is not, and the list is long enough for that call to happen, the loop issues
exactly these `n + 1` calls and ends in a fatal error. -/
theorem broadcastLoop_fail_at (post : Nat → PostOutcome) (messages : List String)
    (tok : String) (n : Nat) : ∀ (i sent : Nat),
    (∀ j, j < n → post (sent + j) = .status StatusOK) →
    post (sent + n) ≠ .status StatusOK →
    i + MaxLINEMessageCount * n < messages.length →
    (broadcastLoop post messages tok i sent).calls
        = (List.range (n + 1)).map
            (fun j => deliveryAt messages tok (i + MaxLINEMessageCount * j) (post (sent + j)))
      ∧ (broadcastLoop post messages tok i sent).exit
          = .fatal (fatalOf (post (sent + n))) := by
  induction n with
  | zero =>
    intro i sent _ hbad hlen
    have h : i < messages.length := by simpa using hlen
    have := broadcastLoop_fail post messages tok i sent h (by simpa using hbad)
    simpa using this
  | succ n ih =>
    intro i sent hgood hbad hlen
    have h : i < messages.length := by
      simp only [MaxLINEMessageCount] at hlen ⊢; omega
    have hp : post sent = .status StatusOK := by simpa using hgood 0 (Nat.succ_pos n)
    rw [broadcastLoop_ok post messages tok i sent h hp]
    have ih := ih (i + MaxLINEMessageCount) (sent + 1)
      (fun j hj => by
        have := hgood (j + 1) (by omega)
        rwa [show sent + 1 + j = sent + (j + 1) by ring])
      (by rwa [show sent + 1 + n = sent + (n + 1) by ring])
      (by simp only [MaxLINEMessageCount] at hlen ⊢; omega)
    obtain ⟨ihc, ihe⟩ := ih
    refine ⟨?_, by rw [ihe, show sent + 1 + n = sent + (n + 1) by ring]⟩
    simp only [ihc]
    rw [List.range_succ_eq_map (n + 1)]
    simp only [List.map_cons, List.map_map, Nat.mul_zero, Nat.add_zero, hp]
    congr 1
    apply List.map_congr_left
    intro j _
    simp only [Function.comp_apply, Nat.succ_eq_add_one]
    rw [show i + MaxLINEMessageCount + MaxLINEMessageCount * j
        = i + MaxLINEMessageCount * (j + 1) by ring,
      show sent + 1 + j = sent + (j + 1) by ring]

theorem ceil_div_five (L : ℕ) : ⌈(L : ℚ) / 5⌉₊ = (L + 4) / 5 := by
  rcases Nat.eq_zero_or_pos ((L + 4) / 5) with h | h
  · have h0 : L = 0 := by omega
    subst h0; simp
  · rw [Nat.ceil_eq_iff (by omega)]
    constructor
    · rw [lt_div_iff₀ (by norm_num)]
      have h1 : ((L + 4) / 5 - 1) * 5 < L := by omega
      exact_mod_cast h1
    · rw [div_le_iff₀ (by norm_num)]
      have h2 : L ≤ ((L + 4) / 5) * 5 := by omega
      exact_mod_cast h2

/-- The request body of the `b`-th delivery call of `broadcastMessage` wraps the block of
five (or fewer, at the end) messages starting at offset `5 * b`. -/
theorem broadcastMessage_getElem? (post : Nat → PostOutcome) (messages : List String)
    (accessToken : String) (b : Nat) (d : Delivery)
    (hd : (broadcastMessage post messages accessToken).calls[b]? = some d) :
    5 * b < messages.length
      ∧ d.body.Messages = ((messages.drop (5 * b)).take 5).map
          (fun m => (⟨"text", m⟩ : LINEBroadcastMessage)) := by
  have h := broadcastLoop_getElem? post messages accessToken 0 0 b d hd
  simp only [Nat.zero_add, MaxLINEMessageCount] at h
  refine ⟨h.1, ?_⟩
  rw [h.2]
  simp [deliveryAt, buildMessageList_eq_map, batchAt_eq, MaxLINEMessageCount]

/-! ## Lemmas on the loop over tag identifiers -/

theorem tagLoop_media_error (w : World) (uid tok ltok : String) (tag : HashtagData)
    (rest : List HashtagData) (m b : Nat) (f : Fatal)
    (h : (getRecentMediaUrlList w m tag.ID uid tok).2 = .error f) :
    tagLoop w uid tok ltok (tag :: rest) m b
      = ⟨[mediaEvent w m tag.ID uid tok], .fatal f⟩ := by
  rw [tagLoop]
  rcases hg : getRecentMediaUrlList w m tag.ID uid tok with ⟨ev, res⟩
  rw [hg] at h
  simp only at h
  subst h
  simp [mediaEvent, hg]

theorem tagLoop_broadcast_returned (w : World) (uid tok ltok : String) (tag : HashtagData)
    (rest : List HashtagData) (m b : Nat) (resp : RecentMediaResponse)
    (hm : w.recentMedia m = .decoded resp)
    (hr : (broadcastMessage (fun k => w.broadcast (b + k)) (permalinks resp) ltok).exit
      = .returned) :
    tagLoop w uid tok ltok (tag :: rest) m b
      = ⟨mediaEvent w m tag.ID uid tok ::
          ((broadcastMessage (fun k => w.broadcast (b + k)) (permalinks resp) ltok).calls.map
              Event.broadcast
            ++ (tagLoop w uid tok ltok rest (m + 1)
                (b + (broadcastMessage (fun k => w.broadcast (b + k)) (permalinks resp)
                  ltok).calls.length)).calls),
          (tagLoop w uid tok ltok rest (m + 1)
            (b + (broadcastMessage (fun k => w.broadcast (b + k)) (permalinks resp)
              ltok).calls.length)).exit⟩ := by
  rw [tagLoop]
  simp only [getRecentMediaUrlList, hm, mediaEvent]
  simp only [permalinks] at hr
  simp only [hr, permalinks]

theorem tagLoop_broadcast_fatal (w : World) (uid tok ltok : String) (tag : HashtagData)
    (rest : List HashtagData) (m b : Nat) (resp : RecentMediaResponse) (f : Fatal)
    (hm : w.recentMedia m = .decoded resp)
    (hr : (broadcastMessage (fun k => w.broadcast (b + k)) (permalinks resp) ltok).exit
      = .fatal f) :
    tagLoop w uid tok ltok (tag :: rest) m b
      = ⟨mediaEvent w m tag.ID uid tok ::
          (broadcastMessage (fun k => w.broadcast (b + k)) (permalinks resp) ltok).calls.map
            Event.broadcast, .fatal f⟩ := by
  rw [tagLoop]
  simp only [getRecentMediaUrlList, hm, mediaEvent]
  simp only [permalinks] at hr
  simp only [hr, permalinks]

/-! ## Lemmas on main -/

theorem splitChars_getElem?_zero (sep : Char) (l : List Char) :
    (splitChars sep l)[0]? = some (l.takeWhile (fun c => c ≠ sep)) := by
  induction l with
  | nil => simp [splitChars]
  | cons c cs ih =>
    by_cases hc : c = sep
    · simp [splitChars, hc]
    · rw [splitChars, if_neg hc]
      cases hs : splitChars sep cs with
      | nil => rw [hs] at ih; simp at ih
      | cons h t =>
        rw [hs] at ih
        simp only [List.getElem?_cons_zero, Option.some.injEq] at ih
        simp [List.takeWhile_cons, hc, ih]

theorem stringsSplit_getElem?_zero (s : String) :
    (stringsSplit s ',')[0]? = some (textBeforeFirstComma s) := by
  simp [stringsSplit, textBeforeFirstComma, List.getElem?_map, splitChars_getElem?_zero]

/-- With `.env` loaded and the four variables non-empty, `main` is the hashtag search for
the text in front of the first comma followed by the loop over the tag identifiers. -/
theorem main_configured (w : World) (hload : w.dotenvLoadFails = false)
    (h1 : w.getenv "INSTAGRAM_USER_ID" ≠ "")
    (h2 : w.getenv "INSTAGRAM_ACCESS_TOKEN" ≠ "")
    (h3 : w.getenv "INSTAGRAM_TAG_NAME_LIST" ≠ "")
    (h4 : w.getenv "LINE_CHANNEL_ACCESS_TOKEN" ≠ "") :
    main w =
      match w.hashtagSearch with
      | .requestFailed =>
        ⟨[searchEvent w (textBeforeFirstComma (w.getenv "INSTAGRAM_TAG_NAME_LIST"))
            (w.getenv "INSTAGRAM_USER_ID") (w.getenv "INSTAGRAM_ACCESS_TOKEN")],
          .fatal .hashtagRequest⟩
      | .readFailed =>
        ⟨[searchEvent w (textBeforeFirstComma (w.getenv "INSTAGRAM_TAG_NAME_LIST"))
            (w.getenv "INSTAGRAM_USER_ID") (w.getenv "INSTAGRAM_ACCESS_TOKEN")],
          .fatal .hashtagRead⟩
      | .parseFailed =>
        ⟨[searchEvent w (textBeforeFirstComma (w.getenv "INSTAGRAM_TAG_NAME_LIST"))
            (w.getenv "INSTAGRAM_USER_ID") (w.getenv "INSTAGRAM_ACCESS_TOKEN")],
          .fatal .hashtagParse⟩
      | .decoded r =>
        if r.Data = [] then
          ⟨[searchEvent w (textBeforeFirstComma (w.getenv "INSTAGRAM_TAG_NAME_LIST"))
              (w.getenv "INSTAGRAM_USER_ID") (w.getenv "INSTAGRAM_ACCESS_TOKEN")],
            .fatal .hashtagNotFound⟩
        else
          ⟨searchEvent w (textBeforeFirstComma (w.getenv "INSTAGRAM_TAG_NAME_LIST"))
              (w.getenv "INSTAGRAM_USER_ID") (w.getenv "INSTAGRAM_ACCESS_TOKEN") ::
              (tagLoop w (w.getenv "INSTAGRAM_USER_ID") (w.getenv "INSTAGRAM_ACCESS_TOKEN")
                (w.getenv "LINE_CHANNEL_ACCESS_TOKEN") r.Data 0 0).calls,
            (tagLoop w (w.getenv "INSTAGRAM_USER_ID") (w.getenv "INSTAGRAM_ACCESS_TOKEN")
              (w.getenv "LINE_CHANNEL_ACCESS_TOKEN") r.Data 0 0).exit⟩ := by
  unfold main
  simp only [hload, h1, h2, h3, h4, if_false, Bool.false_eq_true, stringsSplit_getElem?_zero,
    getHashtagID, searchEvent]
  cases hs : w.hashtagSearch with
  | requestFailed => rfl
  | readFailed => rfl
  | parseFailed => rfl
  | decoded r =>
    by_cases hr : r.Data = []
    · simp [hr]
    · have hl : r.Data.length ≠ 0 := by
        intro h0; exact hr (List.length_eq_zero.mp h0)
      simp [hr, hl]

theorem broadcastLoop_exit (post : Nat → PostOutcome) (messages : List String)
    (tok : String) (i sent : Nat) :
    (broadcastLoop post messages tok i sent).exit = .returned
      ∨ ∃ f, (broadcastLoop post messages tok i sent).exit = .fatal f := by
  by_cases h : i < messages.length
  · by_cases hp : post sent = .status StatusOK
    · rw [broadcastLoop_ok post messages tok i sent h hp]
      exact broadcastLoop_exit post messages tok (i + MaxLINEMessageCount) (sent + 1)
    · exact Or.inr ⟨_, (broadcastLoop_fail post messages tok i sent h hp).2⟩
  · rw [broadcastLoop_done post messages tok i sent h]
    exact Or.inl rfl
termination_by messages.length - i
decreasing_by
  simp only [MaxLINEMessageCount]
  omega

theorem mediaEvent_isRecentMedia (w : World) (n : Nat) (tagID uid tok : String) :
    ∃ req, mediaEvent w n tagID uid tok = Event.recentMedia req (w.recentMedia n) :=
  ⟨_, rfl⟩

/-- The three ways one iteration of the loop over tag identifiers can go. -/
theorem tagLoop_cons_cases (w : World) (uid tok ltok : String) (tag : HashtagData)
    (rest : List HashtagData) (m b : Nat) :
    ((∀ r, w.recentMedia m ≠ .decoded r) ∧ ∃ f,
        tagLoop w uid tok ltok (tag :: rest) m b
          = ⟨[mediaEvent w m tag.ID uid tok], .fatal f⟩)
      ∨ (∃ resp, w.recentMedia m = .decoded resp
          ∧ (broadcastMessage (fun k => w.broadcast (b + k)) (permalinks resp) ltok).exit
            = .returned
          ∧ tagLoop w uid tok ltok (tag :: rest) m b
            = ⟨mediaEvent w m tag.ID uid tok ::
                ((broadcastMessage (fun k => w.broadcast (b + k)) (permalinks resp)
                    ltok).calls.map Event.broadcast
                  ++ (tagLoop w uid tok ltok rest (m + 1)
                      (b + (broadcastMessage (fun k => w.broadcast (b + k))
                        (permalinks resp) ltok).calls.length)).calls),
                (tagLoop w uid tok ltok rest (m + 1)
                  (b + (broadcastMessage (fun k => w.broadcast (b + k)) (permalinks resp)
                    ltok).calls.length)).exit⟩)
      ∨ (∃ resp f, w.recentMedia m = .decoded resp
          ∧ (broadcastMessage (fun k => w.broadcast (b + k)) (permalinks resp) ltok).exit
            = .fatal f
          ∧ tagLoop w uid tok ltok (tag :: rest) m b
            = ⟨mediaEvent w m tag.ID uid tok ::
                (broadcastMessage (fun k => w.broadcast (b + k)) (permalinks resp)
                  ltok).calls.map Event.broadcast, .fatal f⟩) := by
  cases hm : w.recentMedia m with
  | requestFailed =>
    exact Or.inl ⟨by simp, _, tagLoop_media_error w uid tok ltok tag rest m b .mediaRequest
      (by simp [getRecentMediaUrlList, hm])⟩
  | readFailed =>
    exact Or.inl ⟨by simp, _, tagLoop_media_error w uid tok ltok tag rest m b .mediaRead
      (by simp [getRecentMediaUrlList, hm])⟩
  | parseFailed =>
    exact Or.inl ⟨by simp, _, tagLoop_media_error w uid tok ltok tag rest m b .mediaParse
      (by simp [getRecentMediaUrlList, hm])⟩
  | decoded resp =>
    rcases broadcastLoop_exit (fun k => w.broadcast (b + k)) (permalinks resp) ltok 0 0
      with hr | ⟨f, hr⟩
    · exact Or.inr (Or.inl ⟨resp, rfl, hr,
        tagLoop_broadcast_returned w uid tok ltok tag rest m b resp hm hr⟩)
    · exact Or.inr (Or.inr ⟨resp, f, rfl, hr,
        tagLoop_broadcast_fatal w uid tok ltok tag rest m b resp f hm hr⟩)

theorem tagLoop_exit (w : World) (uid tok ltok : String) (tags : List HashtagData) :
    ∀ m b, (tagLoop w uid tok ltok tags m b).exit ≠ .panicked := by
  induction tags with
  | nil => intro m b; simp [tagLoop]
  | cons tag rest ih =>
    intro m b
    rcases tagLoop_cons_cases w uid tok ltok tag rest m b with
      ⟨_, f, h⟩ | ⟨resp, _, _, h⟩ | ⟨resp, f, _, _, h⟩
    · rw [h]; simp
    · rw [h]; exact ih _ _
    · rw [h]; simp

theorem tagLoop_no_search (w : World) (uid tok ltok : String) (tags : List HashtagData) :
    ∀ m b, (tagLoop w uid tok ltok tags m b).calls.filter Event.isHashtagSearch = [] := by
  induction tags with
  | nil => intro m b; simp [tagLoop]
  | cons tag rest ih =>
    intro m b
    obtain ⟨req, hreq⟩ := mediaEvent_isRecentMedia w m tag.ID uid tok
    have hb : ∀ l : List Delivery,
        (l.map Event.broadcast).filter Event.isHashtagSearch = [] := by
      intro l
      induction l with
      | nil => rfl
      | cons a t iht => simp [List.filter_cons, Event.isHashtagSearch]
    rcases tagLoop_cons_cases w uid tok ltok tag rest m b with
      ⟨_, f, h⟩ | ⟨resp, _, _, h⟩ | ⟨resp, f, _, _, h⟩
    · rw [h, hreq]; simp [List.filter_cons, Event.isHashtagSearch]
    · rw [h, hreq]
      simp only [List.filter_cons, Event.isHashtagSearch, List.filter_append, hb, ih]
      simp
    · rw [h, hreq]
      simp only [List.filter_cons, Event.isHashtagSearch, hb]
      simp

/-- The loop over tag identifiers returns when every recent-media call it issued was
decoded and every delivery call it issued was answered with status 200. -/
theorem tagLoop_returns (w : World) (uid tok ltok : String) (tags : List HashtagData) :
    ∀ m b,
      (∀ req res, Event.recentMedia req res ∈ (tagLoop w uid tok ltok tags m b).calls →
        ∃ r, res = .decoded r) →
      (∀ d, Event.broadcast d ∈ (tagLoop w uid tok ltok tags m b).calls →
        d.res = .status StatusOK) →
      (tagLoop w uid tok ltok tags m b).exit = .returned := by
  induction tags with
  | nil => intro m b _ _; simp [tagLoop]
  | cons tag rest ih =>
    intro m b hmedia hpost
    obtain ⟨req, hreq⟩ := mediaEvent_isRecentMedia w m tag.ID uid tok
    rcases tagLoop_cons_cases w uid tok ltok tag rest m b with
      ⟨hne, f, h⟩ | ⟨resp, _, _, h⟩ | ⟨resp, f, _, hf, h⟩
    · exfalso
      obtain ⟨r, hr⟩ := hmedia req (w.recentMedia m) (by rw [h, hreq]; simp)
      exact hne r hr
    · rw [h] at hmedia hpost ⊢
      apply ih
      · intro req2 res2 hmem
        exact hmedia req2 res2 (by simp [hmem])
      · intro d hmem
        exact hpost d (by simp [hmem])
    · exfalso
      rw [h] at hpost
      have hall : ∀ d ∈ (broadcastMessage (fun k => w.broadcast (b + k)) (permalinks resp)
          ltok).calls, d.res = .status StatusOK := by
        intro d hd
        exact hpost d (by simp [hd])
      have := (broadcastLoop_all_ok (fun k => w.broadcast (b + k)) (permalinks resp) ltok
        0 0 hall).1
      rw [broadcastMessage] at hf
      rw [hf] at this
      simp at this

/-- The loop over tag identifiers reads the world only through its HTTP outcomes. -/
theorem tagLoop_congr (w1 w2 : World) (hm : w1.recentMedia = w2.recentMedia)
    (hb : w1.broadcast = w2.broadcast) (uid tok ltok : String) (tags : List HashtagData) :
    ∀ m b, tagLoop w1 uid tok ltok tags m b = tagLoop w2 uid tok ltok tags m b := by
  induction tags with
  | nil => intro m b; simp [tagLoop]
  | cons tag rest ih =>
    intro m b
    rw [tagLoop, tagLoop]
    simp only [getRecentMediaUrlList, hm, hb, ih]

theorem tagLoop_setenv (w : World) (key value uid tok ltok : String)
    (tags : List HashtagData) (m b : Nat) :
    tagLoop (w.setenv key value) uid tok ltok tags m b
      = tagLoop w uid tok ltok tags m b :=
  tagLoop_congr (w.setenv key value) w rfl rfl uid tok ltok tags m b

/-! ## Claims on broadcastMessage -/

/-- C1: when every delivery call of `broadcastMessage` is answered with status 200, the
texts of the message objects of all request bodies, concatenated in the order in which the
requests were sent, are exactly the input list. -/
theorem broadcastMessage_concat_texts (post : Nat → PostOutcome) (messages : List String)
    (accessToken : String)
    (hok : ∀ d ∈ (broadcastMessage post messages accessToken).calls,
      d.res = .status StatusOK) :
    ((broadcastMessage post messages accessToken).calls.map
        (fun d => d.body.Messages.map (fun m => m.Text))).flatten = messages := by
  have h := (broadcastLoop_all_ok post messages accessToken 0 0 hok).2.1
  simpa [broadcastMessage, Delivery.texts] using h

theorem broadcastMessage_concat_texts_witness :
    (∀ d ∈ (broadcastMessage alwaysOK sixMessages "tok").calls, d.res = .status StatusOK)
      ∧ ((broadcastMessage alwaysOK sixMessages "tok").calls.map
          (fun d => d.body.Messages.map (fun m => m.Text))).flatten = sixMessages :=
  have hok : ∀ d ∈ (broadcastMessage alwaysOK sixMessages "tok").calls,
      d.res = .status StatusOK := by
    simp [broadcastMessage, broadcastLoop, sixMessages, alwaysOK, MaxLINEMessageCount,
      jsonMarshal, newRequest, StatusOK]
  ⟨hok, broadcastMessage_concat_texts alwaysOK sixMessages "tok" hok⟩

/-- C2: when the first `k - 1` delivery calls of `broadcastMessage` are answered with
status 200 and the `k`-th (which exists, the list being long enough) with another status
or a transport error, exactly `k` calls are issued, they carry the first `k` batches of
the partition, and the run ends there in a fatal error: inside the loop of `main` the
trace of that tag is the recent-media call followed by these `k` calls, whatever tag
identifiers remain. -/
theorem broadcastMessage_stops_at_failure (post : Nat → PostOutcome)
    (messages : List String) (accessToken : String) (k : Nat) (hk : 1 ≤ k)
    (hgood : ∀ j, j + 1 < k → post j = .status StatusOK)
    (hbad : post (k - 1) ≠ .status StatusOK)
    (hlen : MaxLINEMessageCount * (k - 1) < messages.length) :
    (broadcastMessage post messages accessToken).calls.length = k
      ∧ (broadcastMessage post messages accessToken).calls.map
            (fun d => d.body.Messages.map (fun m => m.Text))
          = (List.range k).map (fun j => (messages.drop (5 * j)).take 5)
      ∧ (broadcastMessage post messages accessToken).calls.map (fun d => d.res)
          = (List.range k).map post
      ∧ (broadcastMessage post messages accessToken).exit = .fatal (fatalOf (post (k - 1)))
      ∧ ∀ (w : World) (uid tok : String) (tag : HashtagData) (rest : List HashtagData)
          (m b : Nat) (resp : RecentMediaResponse),
          w.recentMedia m = .decoded resp → permalinks resp = messages →
          (∀ j, w.broadcast (b + j) = post j) →
          tagLoop w uid tok accessToken (tag :: rest) m b
            = ⟨mediaEvent w m tag.ID uid tok ::
                (broadcastMessage post messages accessToken).calls.map Event.broadcast,
              .fatal (fatalOf (post (k - 1)))⟩ := by
  obtain ⟨n, rfl⟩ : ∃ n, k = n + 1 := ⟨k - 1, by omega⟩
  simp only [Nat.add_sub_cancel] at hbad hlen ⊢
  have h := broadcastLoop_fail_at post messages accessToken n 0 0
    (fun j hj => by simpa using hgood j (by omega)) (by simpa using hbad)
    (by simpa using hlen)
  simp only [Nat.zero_add] at h
  obtain ⟨hc, he⟩ := h
  have hc2 : (broadcastMessage post messages accessToken).calls
      = (List.range (n + 1)).map
          (fun j => deliveryAt messages accessToken (MaxLINEMessageCount * j) (post j)) := hc
  have he2 : (broadcastMessage post messages accessToken).exit
      = .fatal (fatalOf (post n)) := he
  refine ⟨by simp [hc2], ?_, ?_, he2, ?_⟩
  · rw [hc2, List.map_map]
    apply List.map_congr_left
    intro j _
    have := deliveryAt_texts messages accessToken (MaxLINEMessageCount * j) (post j)
    simpa [Delivery.texts, MaxLINEMessageCount] using this
  · rw [hc2, List.map_map]
    apply List.map_congr_left
    intro j _
    simp [deliveryAt]
  · intro w uid tok tag rest m b resp hm hp hpost
    have hfun : (fun j => w.broadcast (b + j)) = post := funext hpost
    subst hp
    have := tagLoop_broadcast_fatal w uid tok accessToken tag rest m b resp
      (fatalOf (post n)) hm (by rw [hfun]; exact he2)
    rw [hfun] at this
    exact this

theorem broadcastMessage_stops_at_failure_witness :
    (1 ≤ 2 ∧ (∀ j, j + 1 < 2 → failSecond j = .status StatusOK)
        ∧ failSecond (2 - 1) ≠ .status StatusOK
        ∧ MaxLINEMessageCount * (2 - 1) < twelveMessages.length)
      ∧ (broadcastMessage failSecond twelveMessages "tok").calls.length = 2
      ∧ (broadcastMessage failSecond twelveMessages "tok").exit
          = .fatal (fatalOf (failSecond (2 - 1))) :=
  have h1 : ∀ j, j + 1 < 2 → failSecond j = .status StatusOK := by
    intro j hj
    have h0 : j = 0 := by omega
    subst h0
    decide
  have h2 : failSecond (2 - 1) ≠ .status StatusOK := by decide
  have h3 : MaxLINEMessageCount * (2 - 1) < twelveMessages.length := by decide
  have h := broadcastMessage_stops_at_failure failSecond twelveMessages "tok" 2
    (by decide) h1 h2 h3
  ⟨⟨by decide, h1, h2, h3⟩, h.1, h.2.2.2.1⟩

/-- C3: when every delivery call of `broadcastMessage` is answered with status 200, the
number of batches produced, which is the number of delivery calls issued, is the quotient
`L / 5` rounded up, for a list of length `L`, and the function returns; in particular
there are 0 calls for `L = 0`, 1 for `L = 5` and 2 for `L = 6`. -/
theorem broadcastMessage_call_count (post : Nat → PostOutcome) (messages : List String)
    (accessToken : String)
    (hok : ∀ d ∈ (broadcastMessage post messages accessToken).calls,
      d.res = .status StatusOK) :
    (broadcastMessage post messages accessToken).calls.length
        = ⌈(messages.length : ℚ) / 5⌉₊
      ∧ (broadcastMessage post messages accessToken).exit = .returned
      ∧ (messages.length = 0 → (broadcastMessage post messages accessToken).calls.length = 0)
      ∧ (messages.length = 5 → (broadcastMessage post messages accessToken).calls.length = 1)
      ∧ (messages.length = 6 → (broadcastMessage post messages accessToken).calls.length = 2)
    := by
  obtain ⟨h1, _, h3⟩ := broadcastLoop_all_ok post messages accessToken 0 0 hok
  have h3b : (broadcastMessage post messages accessToken).calls.length
      = (messages.length + 4) / 5 := by simpa [broadcastMessage] using h3
  refine ⟨by rw [h3b, ceil_div_five], h1, ?_, ?_, ?_⟩ <;> intro hL <;> rw [h3b, hL]

theorem broadcastMessage_call_count_witness :
    (∀ d ∈ (broadcastMessage alwaysOK sixMessages "tok").calls, d.res = .status StatusOK)
      ∧ (broadcastMessage alwaysOK sixMessages "tok").calls.length
          = ⌈(sixMessages.length : ℚ) / 5⌉₊ :=
  have hok : ∀ d ∈ (broadcastMessage alwaysOK sixMessages "tok").calls,
      d.res = .status StatusOK := by
    simp [broadcastMessage, broadcastLoop, sixMessages, alwaysOK, MaxLINEMessageCount,
      jsonMarshal, newRequest, StatusOK]
  ⟨hok, (broadcastMessage_call_count alwaysOK sixMessages "tok" hok).1⟩

/-- C4: every batch built by `broadcastMessage` for a list of length `L` holds between 1
and `MaxLINEMessageCount` = 5 messages; it is one of the `⌈L / 5⌉` batches of the partition;
every batch but the last of these holds exactly 5, and the last holds `L mod 5` messages
when `L` is not a multiple of 5 and 5 when it is. -/
theorem broadcastMessage_batch_sizes (post : Nat → PostOutcome) (messages : List String)
    (accessToken : String) (b : Nat) (d : Delivery)
    (hd : (broadcastMessage post messages accessToken).calls[b]? = some d) :
    1 ≤ d.body.Messages.length
      ∧ d.body.Messages.length ≤ MaxLINEMessageCount
      ∧ b < ⌈(messages.length : ℚ) / 5⌉₊
      ∧ d.body.Messages.length
          = if b + 1 < ⌈(messages.length : ℚ) / 5⌉₊ then 5
            else if messages.length % 5 = 0 then 5 else messages.length % 5 := by
  obtain ⟨hlt, hbody⟩ := broadcastMessage_getElem? post messages accessToken b d hd
  have hlen : d.body.Messages.length = min 5 (messages.length - 5 * b) := by
    rw [hbody]; simp
  rw [ceil_div_five, hlen]
  simp only [MaxLINEMessageCount]
  refine ⟨by omega, by omega, by omega, ?_⟩
  split
  · omega
  · split <;> omega

theorem broadcastMessage_batch_sizes_witness :
    (broadcastMessage alwaysOK sixMessages "tok").calls[1]? = some sixSecondDelivery
      ∧ 1 ≤ sixSecondDelivery.body.Messages.length
      ∧ sixSecondDelivery.body.Messages.length ≤ MaxLINEMessageCount :=
  have hd : (broadcastMessage alwaysOK sixMessages "tok").calls[1]?
      = some sixSecondDelivery := by
    simp [broadcastMessage, broadcastLoop, sixMessages, alwaysOK, MaxLINEMessageCount,
      jsonMarshal, newRequest, StatusOK, slice, buildMessageList, LINEAPIHost,
      LINEBroadcastURL, sixSecondDelivery]
  have h := broadcastMessage_batch_sizes alwaysOK sixMessages "tok" 1 sixSecondDelivery hd
  ⟨hd, h.1, h.2.1⟩

/-- C5: the request of every delivery call of `broadcastMessage` has as many message
objects as its batch `messages[5b : min(5b+5, L)]` has elements, and its `j`-th message
object has type `"text"` and, as text, the `j`-th element of the batch, which is the
element at index `5b + j` of the input list, unchanged. -/
theorem broadcastMessage_request_body (post : Nat → PostOutcome) (messages : List String)
    (accessToken : String) (b : Nat) (d : Delivery)
    (hd : (broadcastMessage post messages accessToken).calls[b]? = some d) :
    d.body.Messages.length
        = (slice messages (5 * b) (min (5 * b + 5) messages.length)).length
      ∧ ∀ j, j < d.body.Messages.length →
          ∃ text, (slice messages (5 * b) (min (5 * b + 5) messages.length))[j]? = some text
            ∧ messages[5 * b + j]? = some text
            ∧ d.body.Messages[j]? = some ⟨"text", text⟩ := by
  obtain ⟨hlt, hbody⟩ := broadcastMessage_getElem? post messages accessToken b d hd
  have hslice : slice messages (5 * b) (min (5 * b + 5) messages.length)
      = (messages.drop (5 * b)).take 5 := by
    unfold slice
    rw [List.drop_take]
    rcases Nat.le_total (5 * b + 5) messages.length with h | h
    · rw [Nat.min_eq_left h]; congr 1; omega
    · rw [Nat.min_eq_right h]
      rw [List.take_of_length_le (by simp), List.take_of_length_le (by simp; omega)]
  rw [hslice, hbody]
  refine ⟨by simp, ?_⟩
  intro j hj
  simp only [List.length_map, List.length_take, List.length_drop] at hj
  have hj5 : j < 5 := by omega
  have hjL : 5 * b + j < messages.length := by omega
  refine ⟨messages[5 * b + j], ?_, ?_, ?_⟩
  · rw [List.getElem?_take, if_pos hj5, List.getElem?_drop]
    exact List.getElem?_eq_getElem hjL
  · exact List.getElem?_eq_getElem hjL
  · rw [List.getElem?_map, List.getElem?_take, if_pos hj5, List.getElem?_drop,
      List.getElem?_eq_getElem hjL]
    rfl

theorem broadcastMessage_request_body_witness :
    (broadcastMessage failSecond twelveMessages "tok").calls[0]? = some twelveFirstDelivery
      ∧ twelveFirstDelivery.body.Messages.length
        = (slice twelveMessages (5 * 0) (min (5 * 0 + 5) twelveMessages.length)).length :=
  have hd : (broadcastMessage failSecond twelveMessages "tok").calls[0]?
      = some twelveFirstDelivery := by
    simp [broadcastMessage, broadcastLoop, twelveMessages, failSecond, MaxLINEMessageCount,
      jsonMarshal, newRequest, StatusOK, slice, buildMessageList, LINEAPIHost,
      LINEBroadcastURL, twelveFirstDelivery]
  ⟨hd, (broadcastMessage_request_body failSecond twelveMessages "tok" 0
    twelveFirstDelivery hd).1⟩

/-! ## Claims on main -/

/-- C6: in a run in which the hashtag-search response decodes to an empty identifier list,
`getHashtagID` ends the process (the fatal error of line 113), and the outbound calls of
the run are the single search call: no recent-media call and no delivery call is issued. -/
theorem main_empty_search_aborts (w : World) (hload : w.dotenvLoadFails = false)
    (h1 : w.getenv "INSTAGRAM_USER_ID" ≠ "")
    (h2 : w.getenv "INSTAGRAM_ACCESS_TOKEN" ≠ "")
    (h3 : w.getenv "INSTAGRAM_TAG_NAME_LIST" ≠ "")
    (h4 : w.getenv "LINE_CHANNEL_ACCESS_TOKEN" ≠ "")
    (hs : w.hashtagSearch = .decoded ⟨[]⟩) :
    (getHashtagID w (textBeforeFirstComma (w.getenv "INSTAGRAM_TAG_NAME_LIST"))
        (w.getenv "INSTAGRAM_USER_ID") (w.getenv "INSTAGRAM_ACCESS_TOKEN")).2
        = .error .hashtagNotFound
      ∧ (main w).exit = .fatal .hashtagNotFound
      ∧ (main w).calls
          = [searchEvent w (textBeforeFirstComma (w.getenv "INSTAGRAM_TAG_NAME_LIST"))
              (w.getenv "INSTAGRAM_USER_ID") (w.getenv "INSTAGRAM_ACCESS_TOKEN")]
      ∧ (main w).calls.filter Event.isRecentMedia = []
      ∧ (main w).calls.filter Event.isBroadcast = [] := by
  have hmain := main_configured w hload h1 h2 h3 h4
  rw [hs] at hmain
  simp only [if_true] at hmain
  rw [hmain]
  refine ⟨by simp [getHashtagID, hs], rfl, rfl, ?_, ?_⟩ <;>
    simp [searchEvent, List.filter_cons, Event.isRecentMedia, Event.isBroadcast]

theorem main_empty_search_aborts_witness :
    (emptySearchWorld.dotenvLoadFails = false
        ∧ emptySearchWorld.getenv "INSTAGRAM_USER_ID" ≠ ""
        ∧ emptySearchWorld.getenv "INSTAGRAM_ACCESS_TOKEN" ≠ ""
        ∧ emptySearchWorld.getenv "INSTAGRAM_TAG_NAME_LIST" ≠ ""
        ∧ emptySearchWorld.getenv "LINE_CHANNEL_ACCESS_TOKEN" ≠ ""
        ∧ emptySearchWorld.hashtagSearch = .decoded ⟨[]⟩)
      ∧ (main emptySearchWorld).exit = .fatal .hashtagNotFound :=
  ⟨⟨rfl, by decide, by decide, by decide, by decide, rfl⟩,
    (main_empty_search_aborts emptySearchWorld rfl (by decide) (by decide) (by decide)
      (by decide) rfl).2.1⟩

/-- C7: for a tag identifier whose recent-media response decodes to an empty permalink
list, `broadcastMessage` is called with the empty list, issues no delivery call and
returns; the iteration contributes the recent-media call only, and the loop of `main` goes
on with the remaining tag identifiers. -/
theorem empty_media_no_delivery (w : World) (uid tok ltok : String) (tag : HashtagData)
    (rest : List HashtagData) (m b : Nat) (hm : w.recentMedia m = .decoded ⟨[]⟩) :
    permalinks ⟨[]⟩ = []
      ∧ (∀ post, broadcastMessage post [] ltok = ⟨[], .returned⟩)
      ∧ tagLoop w uid tok ltok (tag :: rest) m b
          = ⟨mediaEvent w m tag.ID uid tok :: (tagLoop w uid tok ltok rest (m + 1) b).calls,
              (tagLoop w uid tok ltok rest (m + 1) b).exit⟩ := by
  have hb : ∀ post, broadcastMessage post [] ltok = ⟨[], .returned⟩ := by
    intro post
    exact broadcastLoop_done post [] ltok 0 0 (by simp)
  refine ⟨rfl, hb, ?_⟩
  have h := tagLoop_broadcast_returned w uid tok ltok tag rest m b ⟨[]⟩ hm
    (by rw [show permalinks ⟨[]⟩ = [] from rfl, hb])
  rw [show permalinks ⟨[]⟩ = [] from rfl, hb] at h
  simpa using h

theorem empty_media_no_delivery_witness :
    sampleWorld.recentMedia 0 = .decoded ⟨[]⟩
      ∧ tagLoop sampleWorld "u1" "t1" "l1" [⟨"17"⟩, ⟨"18"⟩] 0 0
          = ⟨mediaEvent sampleWorld 0 "17" "u1" "t1" ::
                (tagLoop sampleWorld "u1" "t1" "l1" [⟨"18"⟩] (0 + 1) 0).calls,
              (tagLoop sampleWorld "u1" "t1" "l1" [⟨"18"⟩] (0 + 1) 0).exit⟩ :=
  ⟨rfl, (empty_media_no_delivery sampleWorld "u1" "t1" "l1" ⟨"17"⟩ [⟨"18"⟩] 0 0 rfl).2.2⟩

/-- C8: when at least one of the four required environment variables is missing or empty,
`main` ends in a fatal error and the run has no outbound network call. -/
theorem main_missing_config_no_calls (w : World)
    (h : ∃ k ∈ requiredKeys, w.getenv k = "") :
    (main w).calls = [] ∧ ∃ f, (main w).exit = .fatal f := by
  unfold main
  by_cases hload : w.dotenvLoadFails = true
  · simp [hload]
  by_cases h1 : w.getenv "INSTAGRAM_USER_ID" = ""
  · simp [hload, h1]
  by_cases h2 : w.getenv "INSTAGRAM_ACCESS_TOKEN" = ""
  · simp [hload, h1, h2]
  by_cases h3 : w.getenv "INSTAGRAM_TAG_NAME_LIST" = ""
  · simp [hload, h1, h2, h3]
  by_cases h4 : w.getenv "LINE_CHANNEL_ACCESS_TOKEN" = ""
  · simp [hload, h1, h2, h3, h4]
  exfalso
  obtain ⟨k, hk, hempty⟩ := h
  simp only [requiredKeys, List.mem_cons, List.mem_singleton, List.not_mem_nil,
    or_false] at hk
  rcases hk with rfl | rfl | rfl | rfl
  · exact h1 hempty
  · exact h2 hempty
  · exact h3 hempty
  · exact h4 hempty

theorem main_missing_config_no_calls_witness :
    (∃ k ∈ requiredKeys, noLineTokenWorld.getenv k = "")
      ∧ (main noLineTokenWorld).calls = [] :=
  have h : ∃ k ∈ requiredKeys, noLineTokenWorld.getenv k = "" :=
    ⟨"LINE_CHANNEL_ACCESS_TOKEN", by decide, by decide⟩
  ⟨h, (main_missing_config_no_calls noLineTokenWorld h).1⟩

/-- C9, as stated, fails: with the four variables set and non-empty, a search that
decodes to two identifiers, decodable recent-media responses and status 200 for every
delivery call, the process still ends in a fatal error when `godotenv.Load` fails. -/
theorem main_aborts_without_dotenv :
    (∀ k ∈ requiredKeys, noDotenvWorld.getenv k ≠ "")
      ∧ (∃ r, noDotenvWorld.hashtagSearch = .decoded r ∧ r.Data ≠ [])
      ∧ (∀ n, ∃ r, noDotenvWorld.recentMedia n = .decoded r)
      ∧ (∀ n, noDotenvWorld.broadcast n = .status StatusOK)
      ∧ main noDotenvWorld = ⟨[], .fatal .dotenvLoad⟩
      ∧ (main noDotenvWorld).exit ≠ .returned := by
  refine ⟨by decide, ⟨_, rfl, by simp⟩, ?_, fun _ => rfl, rfl, by decide⟩
  intro n
  by_cases hn : n = 0
  · exact ⟨⟨[]⟩, by simp [noDotenvWorld, hn]⟩
  · exact ⟨⟨[⟨"p0"⟩, ⟨"p1"⟩]⟩, by simp [noDotenvWorld, hn]⟩

/-- C9, amended: when `godotenv.Load` succeeds, the four required variables are non-empty,
the search response decodes to a non-empty identifier list, every recent-media call of the
run is decoded and every delivery call of the run is answered with status 200, `main` runs
to completion (exit code zero). -/
theorem main_returns_when_nothing_fails (w : World) (hload : w.dotenvLoadFails = false)
    (henv : ∀ k ∈ requiredKeys, w.getenv k ≠ "")
    (hsearch : ∃ r, w.hashtagSearch = .decoded r ∧ r.Data ≠ [])
    (hmedia : ∀ req res, Event.recentMedia req res ∈ (main w).calls → ∃ r, res = .decoded r)
    (hpost : ∀ d, Event.broadcast d ∈ (main w).calls → d.res = .status StatusOK) :
    (main w).exit = .returned := by
  have h1 := henv "INSTAGRAM_USER_ID" (by simp [requiredKeys])
  have h2 := henv "INSTAGRAM_ACCESS_TOKEN" (by simp [requiredKeys])
  have h3 := henv "INSTAGRAM_TAG_NAME_LIST" (by simp [requiredKeys])
  have h4 := henv "LINE_CHANNEL_ACCESS_TOKEN" (by simp [requiredKeys])
  obtain ⟨r, hr, hne⟩ := hsearch
  have hmain := main_configured w hload h1 h2 h3 h4
  rw [hr] at hmain
  simp only [hne, if_false] at hmain
  rw [hmain] at hmedia hpost ⊢
  apply tagLoop_returns
  · intro req res hmem
    exact hmedia req res (by simp [hmem])
  · intro d hmem
    exact hpost d (by simp [hmem])

theorem main_returns_when_nothing_fails_witness :
    (sampleWorld.dotenvLoadFails = false
        ∧ (∀ k ∈ requiredKeys, sampleWorld.getenv k ≠ "")
        ∧ (∃ r, sampleWorld.hashtagSearch = .decoded r ∧ r.Data ≠ [])
        ∧ (∀ req res, Event.recentMedia req res ∈ (main sampleWorld).calls →
            ∃ r, res = .decoded r)
        ∧ (∀ d, Event.broadcast d ∈ (main sampleWorld).calls → d.res = .status StatusOK))
      ∧ (main sampleWorld).exit = .returned :=
  have henv : ∀ k ∈ requiredKeys, sampleWorld.getenv k ≠ "" := by decide
  have hsearch : ∃ r, sampleWorld.hashtagSearch = .decoded r ∧ r.Data ≠ [] :=
    ⟨_, rfl, by simp⟩
  have hmedia : ∀ req res, Event.recentMedia req res ∈ (main sampleWorld).calls →
      ∃ r, res = .decoded r := by
    rw [main_configured sampleWorld rfl (by decide) (by decide) (by decide) (by decide)]
    simp [sampleWorld, searchEvent, tagLoop, getRecentMediaUrlList, broadcastMessage,
      broadcastLoop, alwaysOK, MaxLINEMessageCount, jsonMarshal, newRequest, StatusOK]
    rintro req res (⟨_, rfl⟩ | ⟨_, rfl⟩) <;> exact ⟨_, rfl⟩
  have hpost : ∀ d, Event.broadcast d ∈ (main sampleWorld).calls →
      d.res = .status StatusOK := by
    rw [main_configured sampleWorld rfl (by decide) (by decide) (by decide) (by decide)]
    simp [sampleWorld, searchEvent, tagLoop, getRecentMediaUrlList, broadcastMessage,
      broadcastLoop, alwaysOK, MaxLINEMessageCount, jsonMarshal, newRequest, StatusOK]
  ⟨⟨rfl, henv, hsearch, hmedia, hpost⟩,
    main_returns_when_nothing_fails sampleWorld rfl henv hsearch hmedia hpost⟩

/-- C10: with a non-empty tag list (and the rest of the configuration in place), taking
element 0 of the split never fails, whatever the string; the run has exactly one hashtag
search, whose `q` parameter is the text in front of the first comma (the whole string when
there is none); and the run is the same for every non-empty tag list with that same first
entry, so that no later entry reaches any request. -/
theorem main_uses_first_tag_only (w : World) (hload : w.dotenvLoadFails = false)
    (h1 : w.getenv "INSTAGRAM_USER_ID" ≠ "")
    (h2 : w.getenv "INSTAGRAM_ACCESS_TOKEN" ≠ "")
    (h3 : w.getenv "INSTAGRAM_TAG_NAME_LIST" ≠ "")
    (h4 : w.getenv "LINE_CHANNEL_ACCESS_TOKEN" ≠ "") :
    (∀ s : String, (stringsSplit s ',')[0]? = some (textBeforeFirstComma s))
      ∧ (main w).exit ≠ .panicked
      ∧ (main w).calls.filter Event.isHashtagSearch
          = [Event.hashtagSearch
              ⟨InstagramAPIHost ++ InstagramHashtagIDURL,
                [("user_id", w.getenv "INSTAGRAM_USER_ID"),
                  ("q", textBeforeFirstComma (w.getenv "INSTAGRAM_TAG_NAME_LIST")),
                  ("access_token", w.getenv "INSTAGRAM_ACCESS_TOKEN")]⟩
              w.hashtagSearch]
      ∧ ∀ s : String, s ≠ "" →
          textBeforeFirstComma s
            = textBeforeFirstComma (w.getenv "INSTAGRAM_TAG_NAME_LIST") →
          main (w.setenv "INSTAGRAM_TAG_NAME_LIST" s) = main w := by
  have hmain := main_configured w hload h1 h2 h3 h4
  refine ⟨stringsSplit_getElem?_zero, ?_, ?_, ?_⟩
  · rw [hmain]
    cases hs : w.hashtagSearch with
    | requestFailed => simp
    | readFailed => simp
    | parseFailed => simp
    | decoded r =>
      by_cases hr : r.Data = []
      · simp [hr]
      · simp only [hr, if_false]
        exact tagLoop_exit w _ _ _ _ 0 0
  · rw [hmain]
    cases hs : w.hashtagSearch with
    | requestFailed => simp [searchEvent, List.filter_cons, Event.isHashtagSearch, hs]
    | readFailed => simp [searchEvent, List.filter_cons, Event.isHashtagSearch, hs]
    | parseFailed => simp [searchEvent, List.filter_cons, Event.isHashtagSearch, hs]
    | decoded r =>
      by_cases hr : r.Data = []
      · simp [hr, searchEvent, List.filter_cons, Event.isHashtagSearch, hs]
      · simp only [hr, if_false, searchEvent, List.filter_cons, Event.isHashtagSearch,
          if_true, tagLoop_no_search, hs]
  · intro s hs hfirst
    have e1 : (w.setenv "INSTAGRAM_TAG_NAME_LIST" s).getenv "INSTAGRAM_USER_ID"
        = w.getenv "INSTAGRAM_USER_ID" := by simp [World.setenv]
    have e2 : (w.setenv "INSTAGRAM_TAG_NAME_LIST" s).getenv "INSTAGRAM_ACCESS_TOKEN"
        = w.getenv "INSTAGRAM_ACCESS_TOKEN" := by simp [World.setenv]
    have e3 : (w.setenv "INSTAGRAM_TAG_NAME_LIST" s).getenv "INSTAGRAM_TAG_NAME_LIST"
        = s := by simp [World.setenv]
    have e4 : (w.setenv "INSTAGRAM_TAG_NAME_LIST" s).getenv "LINE_CHANNEL_ACCESS_TOKEN"
        = w.getenv "LINE_CHANNEL_ACCESS_TOKEN" := by simp [World.setenv]
    have hmain2 := main_configured (w.setenv "INSTAGRAM_TAG_NAME_LIST" s) hload
      (by rw [e1]; exact h1) (by rw [e2]; exact h2) (by rw [e3]; exact hs)
      (by rw [e4]; exact h4)
    rw [hmain, hmain2, e1, e2, e3, e4, hfirst]
    simp only [tagLoop_setenv, searchEvent]
    rfl

theorem main_uses_first_tag_only_witness :
    (sampleWorld.dotenvLoadFails = false
        ∧ sampleWorld.getenv "INSTAGRAM_USER_ID" ≠ ""
        ∧ sampleWorld.getenv "INSTAGRAM_ACCESS_TOKEN" ≠ ""
        ∧ sampleWorld.getenv "INSTAGRAM_TAG_NAME_LIST" ≠ ""
        ∧ sampleWorld.getenv "LINE_CHANNEL_ACCESS_TOKEN" ≠ "")
      ∧ (main sampleWorld).calls.filter Event.isHashtagSearch
          = [Event.hashtagSearch
              ⟨InstagramAPIHost ++ InstagramHashtagIDURL,
                [("user_id", sampleWorld.getenv "INSTAGRAM_USER_ID"),
                  ("q", textBeforeFirstComma (sampleWorld.getenv "INSTAGRAM_TAG_NAME_LIST")),
                  ("access_token", sampleWorld.getenv "INSTAGRAM_ACCESS_TOKEN")]⟩
              sampleWorld.hashtagSearch] :=
  ⟨⟨rfl, by decide, by decide, by decide, by decide⟩,
    (main_uses_first_tag_only sampleWorld rfl (by decide) (by decide) (by decide)
      (by decide)).2.2.1⟩

end NotifyRecentInstaHashtag
